import Mathlib

/-!
# fastkmedoids: the R entry points `pam`, `fastpam`, `fastclara`, `fastclarans`

Shallow embedding of `src/rcpp_fastkmedoids.cpp`.  The file is the binding
layer of the package: every entry point copies the distance vector, builds an
`RDistMatrix`, possibly an initializer, constructs one engine object, calls
`run()`, reads `getMedoids()` and `getResults()` and stores the three values in
a `KmedoidsResult` record.

The classes `RDistMatrix`, `BUILD`, `LAB`, `PAM`, `FastPAM`, `FastCLARA` and
`FastCLARANS` are declared in `pam.h`, which is not among the sources.  The
embedding of the entry points therefore takes each engine class as a parameter
(`EngineClass`), and represents the objects handed to an engine constructor by
the arguments they were constructed from.
-/

namespace FastKMedoids

/-! ## Data carried through the binding layer -/

/-- Values of C++ type double.  The binding layer only copies them, so exact
rationals stand in for them. -/
abbrev Double := ℚ

/-- A C++ exception (an R condition once it reaches the caller). -/
inductive Condition where
  | InvalidParameter
  | Other (what : String)
  deriving DecidableEq, Repr

/-- The object built by `RDistMatrix dm(n, dist)`, represented by its
constructor arguments. -/
structure RDistMatrix where
  n : Int
  dist : List Double
  deriving DecidableEq, Repr

/-- The object a `PAMInitializer*` points to, represented by the constructor
call that made it: `BUILD(&dm)`, `LAB(&dm, seed)` or `LAB(&dm)` (no seed
argument, written `LAB dm none`). -/
inductive PAMInitializer where
  | BUILD (dm : RDistMatrix)
  | LAB (dm : RDistMatrix) (seed : Option Int)
  deriving DecidableEq, Repr

/-- Arguments of `PAM pam(n, &dm, &init, k, maxiter)`. -/
structure PAMArgs where
  n : Int
  dm : RDistMatrix
  init : PAMInitializer
  k : Int
  maxiter : Int
  deriving DecidableEq, Repr

/-- Arguments of `FastPAM pam(n, &dm, init, k, maxiter, fasttol)`. -/
structure FastPAMArgs where
  n : Int
  dm : RDistMatrix
  init : PAMInitializer
  k : Int
  maxiter : Int
  fasttol : Double
  deriving DecidableEq, Repr

/-- Arguments of
`FastCLARA clara(n, &dm, init, k, maxiter, fasttol, numsamples, sampling, independent, seed)`. -/
structure FastCLARAArgs where
  n : Int
  dm : RDistMatrix
  init : PAMInitializer
  k : Int
  maxiter : Int
  fasttol : Double
  numsamples : Int
  sampling : Double
  independent : Bool
  seed : Int
  deriving DecidableEq, Repr

/-- Arguments of `FastCLARANS clarans(n, &dm, k, numlocal, maxneighbor, seed)`. -/
structure FastCLARANSArgs where
  n : Int
  dm : RDistMatrix
  k : Int
  numlocal : Int
  maxneighbor : Double
  seed : Int
  deriving DecidableEq, Repr

/-- An engine class of `pam.h` as the binding layer uses it: a constructor, a
`run()` that returns the cost and leaves the object in its final state, and
the two getters.  Constructor and `run()` may throw. -/
structure EngineClass (Args : Type) where
  Obj : Type
  new : Args → Except Condition Obj
  run : Obj → Except Condition (Double × Obj)
  getMedoids : Obj → List Int
  getResults : Obj → List Int

/-- The S4 object of class `KmedoidsResult` with its three slots. -/
structure KmedoidsResult where
  cost : Double
  medoids : List Int
  assignment : List Int
  deriving DecidableEq, Repr

/-- The contract of `std::string::compare`: zero exactly when the strings are
equal, negative when the receiver is smaller, positive when it is larger. -/
def stringCompare (a b : String) : Int :=
  if a = b then 0 else if a < b then -1 else 1

/-! ## The four entry points -/

/-- `S4 pam(NumericVector rdist, int n, int k, int maxiter = 0)`. -/
def pam (PAM : EngineClass PAMArgs) (rdist : List Double) (n k : Int)
    (maxiter : Option Int) : Except Condition KmedoidsResult := do
  let maxiter := maxiter.getD 0
  let dist := rdist
  let dm : RDistMatrix := ⟨n, dist⟩
  let init := PAMInitializer.BUILD dm
  let pam ← PAM.new ⟨n, dm, init, k, maxiter⟩
  let (cost, pam) ← PAM.run pam
  let medoids := PAM.getMedoids pam
  let results := PAM.getResults pam
  return ⟨cost, medoids, results⟩

/-- `S4 fastpam(NumericVector rdist, int n, int k, int maxiter=0,
std::string initializer="LAB", double fasttol = 1.0, int seed = 123456789)`. -/
def fastpam (FastPAM : EngineClass FastPAMArgs) (rdist : List Double) (n k : Int)
    (maxiter : Option Int) (initializer : Option String) (fasttol : Option Double)
    (seed : Option Int) : Except Condition KmedoidsResult := do
  let maxiter := maxiter.getD 0
  let initializer := initializer.getD "LAB"
  let fasttol := fasttol.getD 1
  let seed := seed.getD 123456789
  let dist := rdist
  let dm : RDistMatrix := ⟨n, dist⟩
  let init :=
    if stringCompare initializer "BUILD" ≠ 0 then PAMInitializer.BUILD dm
    else PAMInitializer.LAB dm (some seed)
  let pam ← FastPAM.new ⟨n, dm, init, k, maxiter, fasttol⟩
  let (cost, pam) ← FastPAM.run pam
  let medoids := FastPAM.getMedoids pam
  let results := FastPAM.getResults pam
  return ⟨cost, medoids, results⟩

/-- `S4 fastclara(NumericVector rdist, int n, int k, int maxiter=0,
std::string initializer="LAB", double fasttol = 1.0, int numsamples = 5,
double sampling = 0.25, bool independent = false, int seed = 123456789)`. -/
def fastclara (FastCLARA : EngineClass FastCLARAArgs) (rdist : List Double) (n k : Int)
    (maxiter : Option Int) (initializer : Option String) (fasttol : Option Double)
    (numsamples : Option Int) (sampling : Option Double) (independent : Option Bool)
    (seed : Option Int) : Except Condition KmedoidsResult := do
  let maxiter := maxiter.getD 0
  let initializer := initializer.getD "LAB"
  let fasttol := fasttol.getD 1
  let numsamples := numsamples.getD 5
  let sampling := sampling.getD (1 / 4)
  let independent := independent.getD false
  let seed := seed.getD 123456789
  let dist := rdist
  let dm : RDistMatrix := ⟨n, dist⟩
  let init :=
    if stringCompare initializer "BUILD" ≠ 0 then PAMInitializer.BUILD dm
    else PAMInitializer.LAB dm none
  let clara ← FastCLARA.new
    ⟨n, dm, init, k, maxiter, fasttol, numsamples, sampling, independent, seed⟩
  let (cost, clara) ← FastCLARA.run clara
  let medoids := FastCLARA.getMedoids clara
  let results := FastCLARA.getResults clara
  return ⟨cost, medoids, results⟩

/-- `S4 fastclarans(NumericVector rdist, int n, int k, int numlocal=2,
double maxneighbor=0.025, int seed = 123456789)`. -/
def fastclarans (FastCLARANS : EngineClass FastCLARANSArgs) (rdist : List Double)
    (n k : Int) (numlocal : Option Int) (maxneighbor : Option Double)
    (seed : Option Int) : Except Condition KmedoidsResult := do
  let numlocal := numlocal.getD 2
  let maxneighbor := maxneighbor.getD (1 / 40)
  let seed := seed.getD 123456789
  let dist := rdist
  let dm : RDistMatrix := ⟨n, dist⟩
  let clarans ← FastCLARANS.new ⟨n, dm, k, numlocal, maxneighbor, seed⟩
  let (cost, clarans) ← FastCLARANS.run clarans
  let medoids := FastCLARANS.getMedoids clarans
  let results := FastCLARANS.getResults clarans
  return ⟨cost, medoids, results⟩

/-- The call sequence shared by the four entry points, once the constructor
arguments are fixed: construct the engine from `args`, call `run()`, call both
getters on the object `run()` left behind, and fill the three slots; a
condition raised on the way ends the call. -/
def engineOutcome {Args : Type} (E : EngineClass Args) (args : Args) :
    Except Condition KmedoidsResult :=
  match E.new args with
  | .error c => .error c
  | .ok o =>
    match E.run o with
    | .error c => .error c
    | .ok (cost, o1) => .ok ⟨cost, E.getMedoids o1, E.getResults o1⟩

/-! ## The engine boundary, modelled from the specification

`pam.h` is not among the sources, so what the engine classes do is taken from
the specification (sections 3, 4, 6 and 7).  Exact PAM with the BUILD
initializer is modelled in full.  Where the specification leaves a procedure
open (the random source, the LAB sample, the FastPAM second-swap rule, the
CLARA and CLARANS sampling) the procedure is a field of `OpenChoices`, and
results are stated for every value of it.
-/

/-- Storage positions of in-range pairs are in range: for `i < j < n`,
`i + j(j-1)/2 < n(n-1)/2`. -/
theorem pairIndex_lt {n i j : Nat} (hij : i < j) (hj : j < n) :
    i + j * (j - 1) / 2 < n * (n - 1) / 2 := by
  rw [← Nat.choose_two_right, ← Nat.choose_two_right]
  have h1 : (j + 1).choose 2 = j + j.choose 2 := by
    rw [Nat.choose_succ_succ, Nat.choose_one_right]
  have h2 : (j + 1).choose 2 ≤ n.choose 2 := Nat.choose_le_choose 2 hj
  omega

/-- Modelled from the spec: the DistanceMatrix of sections 3, 4.1 and 6 (class
`RDistMatrix` of the absent `pam.h`): compact triangular storage of length
`n(n-1)/2`, immutable, stored once per unordered pair. -/
structure DistanceMatrix where
  n : Nat
  storage : List Double
  size_eq : storage.length = n * (n - 1) / 2

/-- Modelled from the spec: `distance(i, j)` of section 4.1 with the layout of
section 6 (for column `j` greater than row `i`, position `i + j(j-1)/2`);
symmetric by construction and zero on the diagonal.  Indices are of type
`Fin n`, so an out-of-range index cannot be passed. -/
def DistanceMatrix.distance (dm : DistanceMatrix) (i j : Fin dm.n) : Double :=
  if h : i.val < j.val then
    dm.storage.get ⟨i.val + j.val * (j.val - 1) / 2, by
      rw [dm.size_eq]; exact pairIndex_lt h j.isLt⟩
  else if h2 : j.val < i.val then
    dm.storage.get ⟨j.val + i.val * (i.val - 1) / 2, by
      rw [dm.size_eq]; exact pairIndex_lt h2 i.isLt⟩
  else 0

/-- Modelled from the spec: the layout of section 6 read directly on the caller's
vector: the entry of the unordered pair `i`, `j` is at position
`min + max(max-1)/2`, and the diagonal is zero. -/
def pairDistance (rdist : List Double) (i j : Nat) : Double :=
  if i < j then rdist.getD (i + j * (j - 1) / 2) 0
  else if j < i then rdist.getD (j + i * (i - 1) / 2) 0
  else 0

/-- Modelled from the spec: the observation indices `0 .. n-1` of section 3,
ascending. -/
def observations (dm : DistanceMatrix) : List (Fin dm.n) := List.finRange dm.n

/-- Modelled from the spec: selection of a smallest score with ties broken by
first found (sections 4.4 and 7): a later element replaces the current best
only when its score is strictly smaller. -/
def argMinFrom {α : Type} (score : α → Double) : α → List α → α
  | best, [] => best
  | best, x :: xs => argMinFrom score (if score x < score best then x else best) xs

/-- Modelled from the spec: the first element of the list with the smallest
score, if the list is not empty. -/
def argMin? {α : Type} (score : α → Double) : List α → Option α
  | [] => none
  | x :: xs => some (argMinFrom score x xs)

/-- Modelled from the spec: the scan behind the Assign phase (section 4.4, step
1) over the medoids after the first: `best` is the position and distance of
the nearest medoid so far, `pos` the position of the next medoid. -/
def nearestFrom (dm : DistanceMatrix) (i : Fin dm.n) :
    Nat × Double → Nat → List (Fin dm.n) → Nat × Double
  | best, _, [] => best
  | best, pos, m :: ms =>
    nearestFrom dm i (if dm.distance i m < best.2 then (pos, dm.distance i m) else best)
      (pos + 1) ms

/-- Modelled from the spec: the Assignment entry of one observation (section 3):
the position within the medoid sequence of its nearest medoid and the distance
to it; ties go to the medoid found first. -/
def nearest (dm : DistanceMatrix) (M : List (Fin dm.n)) (i : Fin dm.n) : Nat × Double :=
  match M with
  | [] => (0, 0)
  | m :: ms => nearestFrom dm i (0, dm.distance i m) 1 ms

/-- Modelled from the spec: Cost (section 3), the sum over all observations of
the nearest-medoid distance. -/
def totalCost (dm : DistanceMatrix) (M : List (Fin dm.n)) : Double :=
  ((observations dm).map (fun i => (nearest dm M i).2)).sum

/-- Modelled from the spec: the non-medoid observations, ascending (the
candidates of sections 4.3 and 4.4). -/
def nonMedoids (dm : DistanceMatrix) (M : List (Fin dm.n)) : List (Fin dm.n) :=
  (observations dm).filter (fun c => decide (c ∉ M))

/-- Modelled from the spec: the score of the first BUILD medoid (section 4.3),
the total distance from `i` to all observations. -/
def totalDistance (dm : DistanceMatrix) (i : Fin dm.n) : Double :=
  ((observations dm).map (fun j => dm.distance i j)).sum

/-- Modelled from the spec: the BUILD gain of candidate `c` (section 4.3): the
sum over all non-medoid points of `max(0, currentNearestDistance - distance(point, c))`. -/
def buildGain (dm : DistanceMatrix) (M : List (Fin dm.n)) (c : Fin dm.n) : Double :=
  ((nonMedoids dm M).map
    (fun p => max 0 ((nearest dm M p).2 - dm.distance p c))).sum

/-- Modelled from the spec: the greedy steps of BUILD after the first medoid:
`r` more times, add the non-medoid with the largest gain. -/
def buildMore (dm : DistanceMatrix) : Nat → List (Fin dm.n) → List (Fin dm.n)
  | 0, M => M
  | r + 1, M =>
    match argMin? (fun c => - buildGain dm M c) (nonMedoids dm M) with
    | none => M
    | some c => buildMore dm r (M ++ [c])

/-- Modelled from the spec: the BUILD initializer (section 4.3, class `BUILD` of
the absent `pam.h`): the first medoid minimises the total distance to all
others, each further medoid gives the largest reduction of the cost. -/
def buildMedoids (dm : DistanceMatrix) (k : Nat) : List (Fin dm.n) :=
  match k with
  | 0 => []
  | r + 1 =>
    match argMin? (totalDistance dm) (observations dm) with
    | none => []
    | some m => buildMore dm r [m]

/-- Modelled from the spec: the cost delta of replacing the medoid at position
`pos` by `c`, by full recomputation of the cost under the hypothetical swap
(section 4.4, step 2). -/
def swapDelta (dm : DistanceMatrix) (M : List (Fin dm.n)) (pos : Nat) (c : Fin dm.n) :
    Double :=
  totalCost dm (M.set pos c) - totalCost dm M

/-- Modelled from the spec: all (medoid position, non-medoid candidate) pairs in
the fixed iteration order of section 4.4: medoid position ascending, then
candidate ascending. -/
def swapPairs (dm : DistanceMatrix) (M : List (Fin dm.n)) : List (Nat × Fin dm.n) :=
  (List.range M.length).flatMap (fun pos => (nonMedoids dm M).map (fun c => (pos, c)))

/-- Modelled from the spec: the swap search of section 4.4, step 2: the swap with
the smallest delta, the first found among equals. -/
def bestSwap (dm : DistanceMatrix) (M : List (Fin dm.n)) : Option (Nat × Fin dm.n) :=
  argMin? (fun s => swapDelta dm M s.1 s.2) (swapPairs dm M)

/-- Modelled from the spec: the PAMEngine loop (section 4.4): search the best
swap, apply it when it strictly improves the cost and repeat, stop otherwise;
at most `iters` swaps are applied. -/
def pamLoop (dm : DistanceMatrix) : Nat → List (Fin dm.n) → List (Fin dm.n)
  | 0, M => M
  | iters + 1, M =>
    match bestSwap dm M with
    | none => M
    | some s =>
      if swapDelta dm M s.1 s.2 < 0 then pamLoop dm iters (M.set s.1 s.2) else M

/-- Modelled from the spec: the iteration budget of section 4.4: the loop stops
when the iteration count reaches `maxiter`, and 0 means unbounded.  In the
unbounded case a run of the model is given `fuel` iterations
(`pamLoop_unbounded`: `n ^ k` of them reach convergence). -/
def iterations (fuel : Nat) (maxiter : Int) : Nat :=
  if maxiter = 0 then fuel else maxiter.toNat

/-! ### Sizes of the medoid sequences -/

theorem argMin?_isSome {α : Type} (score : α → Double) (l : List α) (h : l ≠ []) :
    ∃ x, argMin? score l = some x := by
  cases l with
  | nil => exact absurd rfl h
  | cons x xs => exact ⟨_, rfl⟩

/-- Fewer medoids than observations leave a non-medoid. -/
theorem nonMedoids_ne_nil (dm : DistanceMatrix) (M : List (Fin dm.n))
    (h : M.length < dm.n) : nonMedoids dm M ≠ [] := by
  have hex : ∃ c : Fin dm.n, c ∉ M := by
    by_contra hall
    push_neg at hall
    have h1 : (Finset.univ : Finset (Fin dm.n)) ⊆ M.toFinset := by
      intro c _
      exact List.mem_toFinset.mpr (hall c)
    have h2 := Finset.card_le_card h1
    have h3 := List.toFinset_card_le M
    simp at h2
    omega
  obtain ⟨c, hc⟩ := hex
  intro hnil
  have hmem : c ∈ nonMedoids dm M := by
    unfold nonMedoids observations
    simp [List.mem_filter, hc]
  rw [hnil] at hmem
  exact absurd hmem (List.not_mem_nil c)

theorem buildMore_length (dm : DistanceMatrix) (r : Nat) :
    ∀ M : List (Fin dm.n), M.length + r ≤ dm.n → (buildMore dm r M).length = M.length + r := by
  induction r with
  | zero => intro M _; rfl
  | succ r ih =>
    intro M h
    obtain ⟨c, hc⟩ := argMin?_isSome (fun c => - buildGain dm M c) (nonMedoids dm M)
      (nonMedoids_ne_nil dm M (by omega))
    simp only [buildMore, hc]
    rw [ih (M ++ [c]) (by simp; omega)]
    simp
    omega

/-- BUILD returns exactly `k` medoids when `k` is at most `n`. -/
theorem buildMedoids_length (dm : DistanceMatrix) (k : Nat) (h : k ≤ dm.n) :
    (buildMedoids dm k).length = k := by
  cases k with
  | zero => rfl
  | succ r =>
    have hne : observations dm ≠ [] := by
      intro hnil
      have := congrArg List.length hnil
      simp [observations] at this
      omega
    obtain ⟨m, hm⟩ := argMin?_isSome (totalDistance dm) (observations dm) hne
    simp only [buildMedoids, hm]
    rw [buildMore_length dm r [m] (by simp; omega)]
    simp
    omega

/-- A swap keeps the number of medoids. -/
theorem pamLoop_length (dm : DistanceMatrix) (iters : Nat) :
    ∀ M : List (Fin dm.n), (pamLoop dm iters M).length = M.length := by
  induction iters with
  | zero => intro M; rfl
  | succ iters ih =>
    intro M
    simp only [pamLoop]
    split
    · rfl
    · split
      · rw [ih]; simp
      · rfl

theorem argMinFrom_mem {α : Type} (score : α → Double) :
    ∀ (xs : List α) (best : α), argMinFrom score best xs ∈ best :: xs := by
  intro xs
  induction xs with
  | nil => intro best; simp [argMinFrom]
  | cons x xs ih =>
    intro best
    simp only [argMinFrom]
    have h := ih (if score x < score best then x else best)
    rcases List.mem_cons.mp h with h1 | h1
    · rw [h1]
      split <;> simp
    · exact List.mem_cons_of_mem _ (List.mem_cons_of_mem _ h1)

theorem argMin?_mem {α : Type} (score : α → Double) (l : List α) (x : α)
    (h : argMin? score l = some x) : x ∈ l := by
  cases l with
  | nil => simp [argMin?] at h
  | cons y ys =>
    simp only [argMin?, Option.some.injEq] at h
    rw [← h]
    exact argMinFrom_mem score ys y

theorem not_mem_of_mem_nonMedoids (dm : DistanceMatrix) (M : List (Fin dm.n))
    (c : Fin dm.n) (h : c ∈ nonMedoids dm M) : c ∉ M := by
  unfold nonMedoids at h
  simpa using (List.mem_filter.mp h).2

theorem buildMore_nodup (dm : DistanceMatrix) (r : Nat) :
    ∀ M : List (Fin dm.n), M.Nodup → (buildMore dm r M).Nodup := by
  induction r with
  | zero => intro M h; exact h
  | succ r ih =>
    intro M h
    simp only [buildMore]
    split
    · exact h
    · next c hc =>
      apply ih
      have hnot := not_mem_of_mem_nonMedoids dm M c (argMin?_mem _ _ _ hc)
      rw [List.nodup_append]
      refine ⟨h, List.nodup_singleton c, ?_⟩
      intro a ha hb
      rw [List.mem_singleton] at hb
      subst hb
      exact hnot ha

/-- BUILD returns distinct medoids. -/
theorem buildMedoids_nodup (dm : DistanceMatrix) (k : Nat) :
    (buildMedoids dm k).Nodup := by
  cases k with
  | zero => exact List.nodup_nil
  | succ r =>
    simp only [buildMedoids]
    split
    · exact List.nodup_nil
    · exact buildMore_nodup dm r _ (List.nodup_singleton _)

theorem bestSwap_not_mem (dm : DistanceMatrix) (M : List (Fin dm.n))
    (s : Nat × Fin dm.n) (h : bestSwap dm M = some s) : s.2 ∉ M := by
  have hmem := argMin?_mem _ _ _ h
  unfold swapPairs at hmem
  rw [List.mem_flatMap] at hmem
  obtain ⟨pos, _, hpos⟩ := hmem
  rw [List.mem_map] at hpos
  obtain ⟨c, hc, rfl⟩ := hpos
  exact not_mem_of_mem_nonMedoids dm M c hc

/-- A swap keeps the medoids distinct: the candidate is not a medoid. -/
theorem pamLoop_nodup (dm : DistanceMatrix) (iters : Nat) :
    ∀ M : List (Fin dm.n), M.Nodup → (pamLoop dm iters M).Nodup := by
  induction iters with
  | zero => intro M h; exact h
  | succ iters ih =>
    intro M h
    simp only [pamLoop]
    split
    · exact h
    · next s hs =>
      split
      · exact ih _ (List.Nodup.set h (bestSwap_not_mem dm M s hs))
      · exact h

/-- For `n` at least 1, the length test on the caller's integers is the length
test on naturals. -/
theorem storage_length_nat {n : Int} {len : Nat} (hn : 1 ≤ n)
    (h : (len : Int) = n * (n - 1) / 2) : len = n.toNat * (n.toNat - 1) / 2 := by
  obtain ⟨m, rfl⟩ : ∃ m : Nat, n = (m : Int) := ⟨n.toNat, by omega⟩
  have hm : 1 ≤ m := by omega
  have hc : (((m * (m - 1) / 2 : Nat)) : Int) = (m : Int) * ((m : Int) - 1) / 2 := by
    push_cast [Nat.cast_sub hm]
    rfl
  simp only [Int.toNat_ofNat]
  omega

/-! ### Engine objects -/

/-- Modelled from the spec: an engine-boundary input that passed the checks of
section 7: a distance matrix whose storage has length `n(n-1)/2` and a number
of clusters `k` with `1 ≤ k ≤ n`. -/
structure Problem where
  dm : DistanceMatrix
  k : Nat
  k_pos : 1 ≤ k
  k_le : k ≤ dm.n

/-- Modelled from the spec: the precondition check of section 7 (constructors of
the engine classes of the absent `pam.h`): `k < 1`, `k > n` or a storage
length other than `n(n-1)/2` is an InvalidParameter condition; nothing is
clamped. -/
def checkInput (n : Int) (dist : List Double) (k : Int) : Except Condition Problem :=
  if h : 1 ≤ k ∧ k ≤ n ∧ (dist.length : Int) = n * (n - 1) / 2 then
    .ok ⟨⟨n.toNat, dist, storage_length_nat (by omega) h.2.2⟩, k.toNat, by omega,
      by show k.toNat ≤ n.toNat; omega⟩
  else .error .InvalidParameter

/-- Modelled from the spec: the MedoidSet of section 3, an ordered sequence of
exactly `k` distinct observation indices. -/
def MedoidSeq (p : Problem) : Type :=
  { M : List (Fin p.dm.n) // M.length = p.k ∧ M.Nodup }

/-- Modelled from the spec: BUILD on a checked input; it yields exactly `k`
distinct medoids. -/
def buildSeq (p : Problem) : MedoidSeq p :=
  ⟨buildMedoids p.dm p.k, buildMedoids_length p.dm p.k p.k_le, buildMedoids_nodup p.dm p.k⟩

/-- Modelled from the spec: the PAMEngine loop on a checked input; a swap keeps
the number of medoids and keeps them distinct. -/
def pamSearch (p : Problem) (iters : Nat) (M : MedoidSeq p) : MedoidSeq p :=
  ⟨pamLoop p.dm iters M.val, by rw [pamLoop_length]; exact M.property.1,
    pamLoop_nodup p.dm iters M.val M.property.2⟩

/-- Modelled from the spec: the procedures the specification names but does not
determine (classes `LAB`, `FastPAM`, `FastCLARA`, `FastCLARANS` of the absent
`pam.h`).  `lab` is the LAB initializer of section 4.3 (its random source and
sample size are not fixed by the specification); `fastpamSearch` is the
FastPAMEngine optimisation of section 4.5 from given initial medoids (the
second-swap rule under `fasttol` is an open question of section 9);
`claraAdmits` is the further admission test of FastCLARA (section 7: sampling
size, seed), `claraSearch` and `claransSearch` are the searches of sections 4.6
and 4.7.  Every procedure returns a sequence of exactly `k` distinct medoids. -/
structure OpenChoices where
  lab : (p : Problem) → Option Int → MedoidSeq p
  fastpamSearch : (p : Problem) → MedoidSeq p → FastPAMArgs → MedoidSeq p
  claraAdmits : FastCLARAArgs → Bool
  claraSearch : (p : Problem) → FastCLARAArgs → MedoidSeq p
  claransSearch : (p : Problem) → FastCLARANSArgs → MedoidSeq p

/-- Modelled from the spec: the initial medoids the initializer object yields. -/
def initialMedoids (ch : OpenChoices) (p : Problem) : PAMInitializer → MedoidSeq p
  | .BUILD _ => buildSeq p
  | .LAB _ seed => ch.lab p seed

/-- Modelled from the spec: the state of an engine object: its constructor
arguments, the checked input, and the medoids and assignment that the getters
report (empty before `run()`). -/
structure EngineObj (Args : Type) where
  args : Args
  problem : Problem
  medoids : List Int
  assignment : List Int

/-- Modelled from the spec: the RunResult of sections 3 and 6 for the final medoid
sequence: the cost, the medoids as 0-based observation indices, and for every
observation the position of its nearest medoid. -/
def runResult (p : Problem) (M : MedoidSeq p) : KmedoidsResult :=
  { cost := totalCost p.dm M.val
    medoids := M.val.map (fun m => (m.val : Int))
    assignment := (observations p.dm).map (fun i => ((nearest p.dm M.val i).1 : Int)) }

/-- Modelled from the spec: the end of `run()`: the cost is returned, medoids and
assignment are kept in the object for the getters. -/
def finish {Args : Type} (o : EngineObj Args) (M : MedoidSeq o.problem) :
    Double × EngineObj Args :=
  ((runResult o.problem M).cost,
    { o with
      medoids := (runResult o.problem M).medoids
      assignment := (runResult o.problem M).assignment })

/-- Modelled from the spec: the PAM engine (section 4.4) with its initializer. -/
def specPAM (ch : OpenChoices) (fuel : Nat) : EngineClass PAMArgs where
  Obj := EngineObj PAMArgs
  new args := (checkInput args.n args.dm.dist args.k).map (fun p => ⟨args, p, [], []⟩)
  run o := .ok (finish o
    (pamSearch o.problem (iterations fuel o.args.maxiter)
      (initialMedoids ch o.problem o.args.init)))
  getMedoids o := o.medoids
  getResults o := o.assignment

/-- Modelled from the spec: the FastPAM engine (section 4.5). -/
def specFastPAM (ch : OpenChoices) : EngineClass FastPAMArgs where
  Obj := EngineObj FastPAMArgs
  new args := (checkInput args.n args.dm.dist args.k).map (fun p => ⟨args, p, [], []⟩)
  run o := .ok (finish o
    (ch.fastpamSearch o.problem (initialMedoids ch o.problem o.args.init) o.args))
  getMedoids o := o.medoids
  getResults o := o.assignment

/-- Modelled from the spec: the FastCLARA engine (section 4.6). -/
def specFastCLARA (ch : OpenChoices) : EngineClass FastCLARAArgs where
  Obj := EngineObj FastCLARAArgs
  new args :=
    match checkInput args.n args.dm.dist args.k with
    | .error c => .error c
    | .ok p => if ch.claraAdmits args then .ok ⟨args, p, [], []⟩ else .error .InvalidParameter
  run o := .ok (finish o (ch.claraSearch o.problem o.args))
  getMedoids o := o.medoids
  getResults o := o.assignment

/-- Modelled from the spec: the FastCLARANS engine (section 4.7). -/
def specFastCLARANS (ch : OpenChoices) : EngineClass FastCLARANSArgs where
  Obj := EngineObj FastCLARANSArgs
  new args := (checkInput args.n args.dm.dist args.k).map (fun p => ⟨args, p, [], []⟩)
  run o := .ok (finish o (ch.claransSearch o.problem o.args))
  getMedoids o := o.medoids
  getResults o := o.assignment

/-- Modelled from the spec: the degenerate value of the open choices, in which
every sample is the full set (section 8: such a CLARA run behaves like a run
on the full set): LAB looks at every candidate and so is BUILD, and every
search is the exact search of section 4.4. -/
def exhaustive (fuel : Nat) : OpenChoices where
  lab p _ := buildSeq p
  fastpamSearch p M args := pamSearch p (iterations fuel args.maxiter) M
  claraAdmits _ := true
  claraSearch p args := pamSearch p (iterations fuel args.maxiter) (buildSeq p)
  claransSearch p _ := pamSearch p fuel (buildSeq p)

/-- Modelled from the spec: the distance vector of observations on a line
(section 8, worked example) in the layout of section 6: for `j = 1, 2, ...`
the distances `|x_i - x_j|` for `i = 0 .. j-1`. -/
def lineDistances (xs : List Double) : List Double :=
  (List.range xs.length).flatMap (fun j =>
    (List.range j).map (fun i => |xs.getD i 0 - xs.getD j 0|))

/-- Modelled from the spec: the termination test of section 4.4: no swap
strictly improves the cost of `M`. -/
def converged (dm : DistanceMatrix) (M : List (Fin dm.n)) : Bool :=
  match bestSwap dm M with
  | none => true
  | some s => !decide (swapDelta dm M s.1 s.2 < 0)

/-- Termination measure of the modelled loop: the number of medoid sequences of
length `k` that cost less than `M`. -/
def cheaperCount (dm : DistanceMatrix) (k : Nat) (M : List (Fin dm.n)) : Nat :=
  ((Finset.univ : Finset (Mathlib.Vector (Fin dm.n) k)).filter
    (fun v => totalCost dm v.val < totalCost dm M)).card

/-- Modelled from the spec: the worked example of section 8: four observations
on a line at positions 0, 1, 2 and 10. -/
def lineMatrix : DistanceMatrix := ⟨4, lineDistances [0, 1, 2, 10], by decide!⟩

/-- Modelled from the spec: the worked example of section 8 with `k = 2`. -/
def lineProblem : Problem := ⟨lineMatrix, 2, by decide, by decide⟩

/-! ## The entry points in terms of the engine they construct -/

theorem outcome_of_do {Args : Type} (E : EngineClass Args) (args : Args) :
    (do
      let o ← E.new args
      let (cost, o1) ← E.run o
      let medoids := E.getMedoids o1
      let results := E.getResults o1
      return (⟨cost, medoids, results⟩ : KmedoidsResult))
      = engineOutcome E args := by
  unfold engineOutcome
  rcases h : E.new args with c | o
  · rfl
  · dsimp only [bind, Except.bind]
    rcases h2 : E.run o with c | ⟨cost, o1⟩ <;> rfl

theorem pam_eq_outcome (PAM : EngineClass PAMArgs) (rdist : List Double) (n k : Int)
    (maxiter : Option Int) :
    pam PAM rdist n k maxiter
      = engineOutcome PAM ⟨n, ⟨n, rdist⟩, .BUILD ⟨n, rdist⟩, k, maxiter.getD 0⟩ :=
  outcome_of_do PAM _

theorem fastpam_eq_outcome (FastPAM : EngineClass FastPAMArgs) (rdist : List Double)
    (n k : Int) (maxiter : Option Int) (initializer : Option String)
    (fasttol : Option Double) (seed : Option Int) :
    fastpam FastPAM rdist n k maxiter initializer fasttol seed
      = engineOutcome FastPAM
          ⟨n, ⟨n, rdist⟩,
            if stringCompare (initializer.getD "LAB") "BUILD" ≠ 0
            then PAMInitializer.BUILD ⟨n, rdist⟩
            else PAMInitializer.LAB ⟨n, rdist⟩ (some (seed.getD 123456789)),
            k, maxiter.getD 0, fasttol.getD 1⟩ :=
  outcome_of_do FastPAM _

theorem fastclara_eq_outcome (FastCLARA : EngineClass FastCLARAArgs) (rdist : List Double)
    (n k : Int) (maxiter : Option Int) (initializer : Option String)
    (fasttol : Option Double) (numsamples : Option Int) (sampling : Option Double)
    (independent : Option Bool) (seed : Option Int) :
    fastclara FastCLARA rdist n k maxiter initializer fasttol numsamples sampling
        independent seed
      = engineOutcome FastCLARA
          ⟨n, ⟨n, rdist⟩,
            if stringCompare (initializer.getD "LAB") "BUILD" ≠ 0
            then PAMInitializer.BUILD ⟨n, rdist⟩
            else PAMInitializer.LAB ⟨n, rdist⟩ none,
            k, maxiter.getD 0, fasttol.getD 1, numsamples.getD 5, sampling.getD (1 / 4),
            independent.getD false, seed.getD 123456789⟩ :=
  outcome_of_do FastCLARA _

theorem fastclarans_eq_outcome (FastCLARANS : EngineClass FastCLARANSArgs)
    (rdist : List Double) (n k : Int) (numlocal : Option Int)
    (maxneighbor : Option Double) (seed : Option Int) :
    fastclarans FastCLARANS rdist n k numlocal maxneighbor seed
      = engineOutcome FastCLARANS
          ⟨n, ⟨n, rdist⟩, k, numlocal.getD 2, maxneighbor.getD (1 / 40),
            seed.getD 123456789⟩ :=
  outcome_of_do FastCLARANS _

/-- The outcome is a record exactly when constructor and `run()` succeed, and
then its slots are the cost `run()` returned and what the getters report on
the object after `run()`. -/
theorem engineOutcome_ok_iff {Args : Type} (E : EngineClass Args) (args : Args)
    (r : KmedoidsResult) :
    engineOutcome E args = .ok r ↔
      ∃ o c o1, E.new args = .ok o ∧ E.run o = .ok (c, o1) ∧
        r.cost = c ∧ r.medoids = E.getMedoids o1 ∧ r.assignment = E.getResults o1 := by
  unfold engineOutcome
  constructor
  · intro h
    cases hn : E.new args with
    | error c => simp [hn] at h
    | ok o =>
      cases hr : E.run o with
      | error c => simp [hn, hr] at h
      | ok p =>
        obtain ⟨c, o1⟩ := p
        simp [hn, hr] at h
        exact ⟨o, c, o1, rfl, hr, by rw [← h], by rw [← h], by rw [← h]⟩
  · rintro ⟨o, c, o1, hn, hr, h1, h2, h3⟩
    simp only [hn, hr]
    cases r
    simp_all

theorem engineOutcome_error_iff {Args : Type} (E : EngineClass Args) (args : Args)
    (c : Condition) :
    engineOutcome E args = .error c ↔
      E.new args = .error c ∨ ∃ o, E.new args = .ok o ∧ E.run o = .error c := by
  unfold engineOutcome
  rcases hn : E.new args with c1 | o
  · simp
  · rcases hr : E.run o with c2 | ⟨cost, o1⟩
    · simp [hr]
    · simp [hr]

theorem stringCompare_eq_zero_iff (a b : String) : stringCompare a b = 0 ↔ a = b := by
  unfold stringCompare
  by_cases h : a = b
  · simp [h]
  · simp only [h, if_false, iff_false]
    split <;> decide

theorem stringCompare_ne_zero_iff (a b : String) : stringCompare a b ≠ 0 ↔ a ≠ b :=
  not_congr (stringCompare_eq_zero_iff a b)

/-! ## Claims settled on the binding layer -/

/-- C1, as the code behaves: `initializer.compare("BUILD")` is zero on equality,
and the entry points take the BUILD branch when it is not zero.  So
`initializer = "BUILD"` makes fastpam and fastclara construct the LAB
initializer, and `initializer = "LAB"` makes them construct BUILD: the
argument selects the initializer it does not name. -/
theorem initializer_selection_swapped (FastPAM : EngineClass FastPAMArgs)
    (FastCLARA : EngineClass FastCLARAArgs) (rdist : List Double) (n k : Int)
    (maxiter : Option Int) (fasttol : Option Double) (numsamples : Option Int)
    (sampling : Option Double) (independent : Option Bool) (seed : Option Int) :
    fastpam FastPAM rdist n k maxiter (some "BUILD") fasttol seed
        = engineOutcome FastPAM
            ⟨n, ⟨n, rdist⟩, .LAB ⟨n, rdist⟩ (some (seed.getD 123456789)), k,
              maxiter.getD 0, fasttol.getD 1⟩
    ∧ fastpam FastPAM rdist n k maxiter (some "LAB") fasttol seed
        = engineOutcome FastPAM
            ⟨n, ⟨n, rdist⟩, .BUILD ⟨n, rdist⟩, k, maxiter.getD 0, fasttol.getD 1⟩
    ∧ fastclara FastCLARA rdist n k maxiter (some "BUILD") fasttol numsamples sampling
          independent seed
        = engineOutcome FastCLARA
            ⟨n, ⟨n, rdist⟩, .LAB ⟨n, rdist⟩ none, k, maxiter.getD 0, fasttol.getD 1,
              numsamples.getD 5, sampling.getD (1 / 4), independent.getD false,
              seed.getD 123456789⟩
    ∧ fastclara FastCLARA rdist n k maxiter (some "LAB") fasttol numsamples sampling
          independent seed
        = engineOutcome FastCLARA
            ⟨n, ⟨n, rdist⟩, .BUILD ⟨n, rdist⟩, k, maxiter.getD 0, fasttol.getD 1,
              numsamples.getD 5, sampling.getD (1 / 4), independent.getD false,
              seed.getD 123456789⟩ := by
  have hB : ¬ (stringCompare "BUILD" "BUILD" ≠ 0) := by
    rw [stringCompare_ne_zero_iff]; decide
  have hL : stringCompare "LAB" "BUILD" ≠ 0 := by
    rw [stringCompare_ne_zero_iff]; decide
  refine ⟨?_, ?_, ?_, ?_⟩
  · rw [fastpam_eq_outcome]; simp only [Option.getD_some, if_neg hB]
  · rw [fastpam_eq_outcome]; simp only [Option.getD_some, if_pos hL]
  · rw [fastclara_eq_outcome]; simp only [Option.getD_some, if_neg hB]
  · rw [fastclara_eq_outcome]; simp only [Option.getD_some, if_pos hL]

/-- C3: every entry point is a format adaptation of the engine result.  The call
returns a record exactly when the engine constructor and `run()` succeed, and
then `cost` is the value `run()` returned and `medoids` and `assignment` are
the lists `getMedoids()` and `getResults()` report on the object after that
run, unchanged (same order, same 0-based values, same length). -/
theorem entry_points_adapt_engine_result (PAM : EngineClass PAMArgs)
    (FastPAM : EngineClass FastPAMArgs) (FastCLARA : EngineClass FastCLARAArgs)
    (FastCLARANS : EngineClass FastCLARANSArgs) (rdist : List Double) (n k : Int)
    (maxiter : Option Int) (initializer : Option String) (fasttol : Option Double)
    (numsamples : Option Int) (sampling : Option Double) (independent : Option Bool)
    (seed : Option Int) (numlocal : Option Int) (maxneighbor : Option Double)
    (r : KmedoidsResult) :
    (pam PAM rdist n k maxiter = .ok r ↔
      ∃ o c o1,
        PAM.new ⟨n, ⟨n, rdist⟩, .BUILD ⟨n, rdist⟩, k, maxiter.getD 0⟩ = .ok o ∧
        PAM.run o = .ok (c, o1) ∧
        r.cost = c ∧ r.medoids = PAM.getMedoids o1 ∧ r.assignment = PAM.getResults o1)
    ∧ (fastpam FastPAM rdist n k maxiter initializer fasttol seed = .ok r ↔
      ∃ o c o1,
        FastPAM.new
          ⟨n, ⟨n, rdist⟩,
            if stringCompare (initializer.getD "LAB") "BUILD" ≠ 0
            then PAMInitializer.BUILD ⟨n, rdist⟩
            else PAMInitializer.LAB ⟨n, rdist⟩ (some (seed.getD 123456789)),
            k, maxiter.getD 0, fasttol.getD 1⟩ = .ok o ∧
        FastPAM.run o = .ok (c, o1) ∧
        r.cost = c ∧ r.medoids = FastPAM.getMedoids o1 ∧
        r.assignment = FastPAM.getResults o1)
    ∧ (fastclara FastCLARA rdist n k maxiter initializer fasttol numsamples sampling
          independent seed = .ok r ↔
      ∃ o c o1,
        FastCLARA.new
          ⟨n, ⟨n, rdist⟩,
            if stringCompare (initializer.getD "LAB") "BUILD" ≠ 0
            then PAMInitializer.BUILD ⟨n, rdist⟩
            else PAMInitializer.LAB ⟨n, rdist⟩ none,
            k, maxiter.getD 0, fasttol.getD 1, numsamples.getD 5, sampling.getD (1 / 4),
            independent.getD false, seed.getD 123456789⟩ = .ok o ∧
        FastCLARA.run o = .ok (c, o1) ∧
        r.cost = c ∧ r.medoids = FastCLARA.getMedoids o1 ∧
        r.assignment = FastCLARA.getResults o1)
    ∧ (fastclarans FastCLARANS rdist n k numlocal maxneighbor seed = .ok r ↔
      ∃ o c o1,
        FastCLARANS.new
          ⟨n, ⟨n, rdist⟩, k, numlocal.getD 2, maxneighbor.getD (1 / 40),
            seed.getD 123456789⟩ = .ok o ∧
        FastCLARANS.run o = .ok (c, o1) ∧
        r.cost = c ∧ r.medoids = FastCLARANS.getMedoids o1 ∧
        r.assignment = FastCLARANS.getResults o1) := by
  refine ⟨?_, ?_, ?_, ?_⟩
  · rw [pam_eq_outcome]; exact engineOutcome_ok_iff _ _ _
  · rw [fastpam_eq_outcome]; exact engineOutcome_ok_iff _ _ _
  · rw [fastclara_eq_outcome]; exact engineOutcome_ok_iff _ _ _
  · rw [fastclarans_eq_outcome]; exact engineOutcome_ok_iff _ _ _

/-- C5, as the code behaves: when fastclara constructs the LAB initializer (which
it does for `initializer = "BUILD"`), it calls `LAB(&dm)` without a seed
argument: the caller's seed reaches the FastCLARA engine but not the LAB
initializer, whereas fastpam passes it to `LAB(&dm, seed)`. -/
theorem fastclara_LAB_without_seed (FastCLARA : EngineClass FastCLARAArgs)
    (rdist : List Double) (n k : Int) (maxiter : Option Int) (fasttol : Option Double)
    (numsamples : Option Int) (sampling : Option Double) (independent : Option Bool)
    (seed : Int) :
    fastclara FastCLARA rdist n k maxiter (some "BUILD") fasttol numsamples sampling
          independent (some seed)
        = engineOutcome FastCLARA
            ⟨n, ⟨n, rdist⟩, .LAB ⟨n, rdist⟩ none, k, maxiter.getD 0, fasttol.getD 1,
              numsamples.getD 5, sampling.getD (1 / 4), independent.getD false, seed⟩
    ∧ PAMInitializer.LAB ⟨n, rdist⟩ none ≠ PAMInitializer.LAB ⟨n, rdist⟩ (some seed) := by
  have hB : ¬ (stringCompare "BUILD" "BUILD" ≠ 0) := by
    rw [stringCompare_ne_zero_iff]; decide
  refine ⟨?_, ?_⟩
  · rw [fastclara_eq_outcome]; simp only [Option.getD_some, if_neg hB]
  · intro h; cases h

/-- C6, as the code behaves: when fastclara is called without a `sampling`
argument, the engine is handed the declared default 0.25, which is not
`80 + 4*k` for any `k`. -/
theorem fastclara_default_sampling (FastCLARA : EngineClass FastCLARAArgs)
    (rdist : List Double) (n k : Int) (maxiter : Option Int)
    (initializer : Option String) (fasttol : Option Double) (numsamples : Option Int)
    (independent : Option Bool) (seed : Option Int) :
    fastclara FastCLARA rdist n k maxiter initializer fasttol numsamples none
          independent seed
        = engineOutcome FastCLARA
            ⟨n, ⟨n, rdist⟩,
              if stringCompare (initializer.getD "LAB") "BUILD" ≠ 0
              then PAMInitializer.BUILD ⟨n, rdist⟩
              else PAMInitializer.LAB ⟨n, rdist⟩ none,
              k, maxiter.getD 0, fasttol.getD 1, numsamples.getD 5, 1 / 4,
              independent.getD false, seed.getD 123456789⟩
    ∧ ((1 / 4 : Double) ≠ 80 + 4 * (k : Double)) := by
  refine ⟨?_, ?_⟩
  · rw [fastclara_eq_outcome]; rfl
  · intro h
    have h2 : (1 : ℚ) = 4 * (80 + 4 * (k : ℚ)) := by
      have : (4 : ℚ) * (1 / 4) = 4 * (80 + 4 * (k : ℚ)) := by rw [h]
      linarith
    have h3 : (1 : Int) = 4 * (80 + 4 * k) := by exact_mod_cast h2
    omega

/-- C9: pam follows the flow distance matrix, BUILD initializer, PAM engine,
result.  For every input it constructs the PAM engine from the caller's `n`,
the matrix built from `(n, rdist)` unchanged, the BUILD initializer over that
matrix (no LAB, no seed), the caller's `k` and `maxiter` (0 when omitted), then
calls `run()`, and reads the medoids and the assignment from the object that
`run()` left behind; a condition raised by the constructor or by `run()` is
the outcome of the call. -/
theorem pam_flow (PAM : EngineClass PAMArgs) (rdist : List Double) (n k : Int)
    (maxiter : Option Int) :
    pam PAM rdist n k maxiter =
      match PAM.new ⟨n, ⟨n, rdist⟩, PAMInitializer.BUILD ⟨n, rdist⟩, k, maxiter.getD 0⟩ with
      | .error c => .error c
      | .ok o =>
        match PAM.run o with
        | .error c => .error c
        | .ok (cost, o1) => .ok ⟨cost, PAM.getMedoids o1, PAM.getResults o1⟩ := by
  rw [pam_eq_outcome]
  unfold engineOutcome
  rcases PAM.new ⟨n, ⟨n, rdist⟩, PAMInitializer.BUILD ⟨n, rdist⟩, k, maxiter.getD 0⟩ with c | o
  · rfl
  · dsimp only
    rcases PAM.run o with c | ⟨cost, o1⟩ <;> rfl

/-- C10: in fastpam, for every initializer string other than exactly "BUILD" (the
default "LAB", the empty string and unknown names included; none is rejected),
the outcome does not depend on `seed`: both calls construct the BUILD
initializer, which takes no seed, and the same FastPAM engine. -/
theorem fastpam_seed_irrelevant (FastPAM : EngineClass FastPAMArgs)
    (rdist : List Double) (n k : Int) (maxiter : Option Int)
    (initializer : Option String) (fasttol : Option Double) (seed seed2 : Option Int)
    (h : initializer.getD "LAB" ≠ "BUILD") :
    fastpam FastPAM rdist n k maxiter initializer fasttol seed
        = fastpam FastPAM rdist n k maxiter initializer fasttol seed2
    ∧ fastpam FastPAM rdist n k maxiter initializer fasttol seed
        = engineOutcome FastPAM
            ⟨n, ⟨n, rdist⟩, .BUILD ⟨n, rdist⟩, k, maxiter.getD 0, fasttol.getD 1⟩ := by
  have hc : stringCompare (initializer.getD "LAB") "BUILD" ≠ 0 :=
    (stringCompare_ne_zero_iff _ _).mpr h
  refine ⟨?_, ?_⟩
  · rw [fastpam_eq_outcome, fastpam_eq_outcome]; simp only [if_pos hc]
  · rw [fastpam_eq_outcome]; simp only [if_pos hc]

/-- With the `initializer` argument omitted (declared default "LAB"), fastpam and
fastclara construct the BUILD initializer. -/
theorem default_initializer_constructs_BUILD (FastPAM : EngineClass FastPAMArgs)
    (FastCLARA : EngineClass FastCLARAArgs) (rdist : List Double) (n k : Int)
    (maxiter : Option Int) (fasttol : Option Double) (numsamples : Option Int)
    (sampling : Option Double) (independent : Option Bool) (seed : Option Int) :
    fastpam FastPAM rdist n k maxiter none fasttol seed
        = engineOutcome FastPAM
            ⟨n, ⟨n, rdist⟩, .BUILD ⟨n, rdist⟩, k, maxiter.getD 0, fasttol.getD 1⟩
    ∧ fastclara FastCLARA rdist n k maxiter none fasttol numsamples sampling
          independent seed
        = engineOutcome FastCLARA
            ⟨n, ⟨n, rdist⟩, .BUILD ⟨n, rdist⟩, k, maxiter.getD 0, fasttol.getD 1,
              numsamples.getD 5, sampling.getD (1 / 4), independent.getD false,
              seed.getD 123456789⟩ := by
  have hL : stringCompare "LAB" "BUILD" ≠ 0 := by
    rw [stringCompare_ne_zero_iff]; decide
  refine ⟨?_, ?_⟩
  · rw [fastpam_eq_outcome]; simp only [Option.getD_none, if_pos hL]
  · rw [fastclara_eq_outcome]; simp only [Option.getD_none, if_pos hL]

/-- A call with arguments omitted is the call with the declared defaults:
`maxiter = 0`, `initializer = "LAB"`, `fasttol = 1.0`, `numsamples = 5`,
`sampling = 0.25`, `independent = false`, `seed = 123456789`, `numlocal = 2`,
`maxneighbor = 0.025`. -/
theorem omitted_arguments_take_defaults (PAM : EngineClass PAMArgs)
    (FastPAM : EngineClass FastPAMArgs) (FastCLARA : EngineClass FastCLARAArgs)
    (FastCLARANS : EngineClass FastCLARANSArgs) (rdist : List Double) (n k : Int) :
    pam PAM rdist n k none = pam PAM rdist n k (some 0)
    ∧ fastpam FastPAM rdist n k none none none none
        = fastpam FastPAM rdist n k (some 0) (some "LAB") (some 1) (some 123456789)
    ∧ fastclara FastCLARA rdist n k none none none none none none none
        = fastclara FastCLARA rdist n k (some 0) (some "LAB") (some 1) (some 5)
            (some (1 / 4)) (some false) (some 123456789)
    ∧ fastclarans FastCLARANS rdist n k none none none
        = fastclarans FastCLARANS rdist n k (some 2) (some (1 / 40)) (some 123456789) :=
  ⟨rfl, rfl, rfl, rfl⟩

/-- A condition raised by the engine is the outcome of the call: an entry point
fails with condition `c` exactly when the engine constructor fails with `c`
(and `run()` is not called) or `run()` fails with `c`; nothing is caught. -/
theorem engine_conditions_propagate (PAM : EngineClass PAMArgs)
    (FastCLARANS : EngineClass FastCLARANSArgs) (rdist : List Double) (n k : Int)
    (maxiter : Option Int) (numlocal : Option Int) (maxneighbor : Option Double)
    (seed : Option Int) (c : Condition) :
    (pam PAM rdist n k maxiter = .error c ↔
      PAM.new ⟨n, ⟨n, rdist⟩, .BUILD ⟨n, rdist⟩, k, maxiter.getD 0⟩ = .error c
      ∨ ∃ o, PAM.new ⟨n, ⟨n, rdist⟩, .BUILD ⟨n, rdist⟩, k, maxiter.getD 0⟩ = .ok o
          ∧ PAM.run o = .error c)
    ∧ (fastclarans FastCLARANS rdist n k numlocal maxneighbor seed = .error c ↔
      FastCLARANS.new ⟨n, ⟨n, rdist⟩, k, numlocal.getD 2, maxneighbor.getD (1 / 40),
          seed.getD 123456789⟩ = .error c
      ∨ ∃ o, FastCLARANS.new ⟨n, ⟨n, rdist⟩, k, numlocal.getD 2,
            maxneighbor.getD (1 / 40), seed.getD 123456789⟩ = .ok o
          ∧ FastCLARANS.run o = .error c) := by
  refine ⟨?_, ?_⟩
  · rw [pam_eq_outcome]; exact engineOutcome_error_iff _ _ _
  · rw [fastclarans_eq_outcome]; exact engineOutcome_error_iff _ _ _

/-- When fastpam constructs the LAB initializer (`initializer = "BUILD"`), it
hands it the caller's seed, 123456789 when the seed is omitted; the FastPAM
engine itself receives no seed. -/
theorem fastpam_LAB_receives_seed (FastPAM : EngineClass FastPAMArgs)
    (rdist : List Double) (n k : Int) (maxiter : Option Int) (fasttol : Option Double)
    (seed : Int) :
    fastpam FastPAM rdist n k maxiter (some "BUILD") fasttol (some seed)
        = engineOutcome FastPAM
            ⟨n, ⟨n, rdist⟩, .LAB ⟨n, rdist⟩ (some seed), k, maxiter.getD 0, fasttol.getD 1⟩
    ∧ fastpam FastPAM rdist n k maxiter (some "BUILD") fasttol none
        = engineOutcome FastPAM
            ⟨n, ⟨n, rdist⟩, .LAB ⟨n, rdist⟩ (some 123456789), k, maxiter.getD 0,
              fasttol.getD 1⟩ := by
  have hB : ¬ (stringCompare "BUILD" "BUILD" ≠ 0) := by
    rw [stringCompare_ne_zero_iff]; decide
  refine ⟨?_, ?_⟩
  · rw [fastpam_eq_outcome]; simp only [Option.getD_some, if_neg hB]
  · rw [fastpam_eq_outcome]; simp only [Option.getD_some, Option.getD_none, if_neg hB]

/-- The FastCLARA engine is constructed from the caller's values unchanged: `n`,
the matrix built from `(n, rdist)`, `k`, `maxiter`, `fasttol`, `numsamples`,
`sampling`, `independent` and `seed`, in this order after the initializer. -/
theorem fastclara_engine_arguments (FastCLARA : EngineClass FastCLARAArgs)
    (rdist : List Double) (n k maxiter : Int) (initializer : String) (fasttol : Double)
    (numsamples : Int) (sampling : Double) (independent : Bool) (seed : Int) :
    fastclara FastCLARA rdist n k (some maxiter) (some initializer) (some fasttol)
        (some numsamples) (some sampling) (some independent) (some seed)
      = engineOutcome FastCLARA
          ⟨n, ⟨n, rdist⟩,
            if stringCompare initializer "BUILD" ≠ 0
            then PAMInitializer.BUILD ⟨n, rdist⟩
            else PAMInitializer.LAB ⟨n, rdist⟩ none,
            k, maxiter, fasttol, numsamples, sampling, independent, seed⟩ := by
  rw [fastclara_eq_outcome]; rfl

/-- fastclarans constructs no initializer: the FastCLARANS engine is constructed
from the caller's `n`, the matrix built from `(n, rdist)`, `k`, `numlocal`,
`maxneighbor` and `seed`, unchanged. -/
theorem fastclarans_engine_arguments (FastCLARANS : EngineClass FastCLARANSArgs)
    (rdist : List Double) (n k numlocal : Int) (maxneighbor : Double) (seed : Int) :
    fastclarans FastCLARANS rdist n k (some numlocal) (some maxneighbor) (some seed)
      = engineOutcome FastCLARANS ⟨n, ⟨n, rdist⟩, k, numlocal, maxneighbor, seed⟩ := by
  rw [fastclarans_eq_outcome]; rfl

/-! ## The modelled engines behind the entry points -/

theorem checkInput_invalid (n : Int) (dist : List Double) (k : Int)
    (h : k < 1 ∨ k > n ∨ (dist.length : Int) ≠ n * (n - 1) / 2) :
    checkInput n dist k = .error .InvalidParameter := by
  unfold checkInput
  rw [dif_neg]
  rintro ⟨h1, h2, h3⟩
  rcases h with h | h | h
  · omega
  · omega
  · exact h h3

theorem specPAM_outcome (ch : OpenChoices) (fuel : Nat) (args : PAMArgs) (p : Problem)
    (hc : checkInput args.n args.dm.dist args.k = .ok p) :
    engineOutcome (specPAM ch fuel) args
      = .ok (runResult p
          (pamSearch p (iterations fuel args.maxiter) (initialMedoids ch p args.init))) := by
  unfold engineOutcome
  have hnew : (specPAM ch fuel).new args = .ok ⟨args, p, [], []⟩ := by
    show (checkInput args.n args.dm.dist args.k).map _ = _
    rw [hc]; rfl
  rw [hnew]
  rfl

/-- Once no swap improves the cost, the loop returns its input whatever the
number of iterations left. -/
theorem pamLoop_converged (dm : DistanceMatrix) (M : List (Fin dm.n))
    (h : converged dm M = true) (iters : Nat) : pamLoop dm iters M = M := by
  cases iters with
  | zero => rfl
  | succ iters =>
    unfold converged at h
    simp only [pamLoop]
    split
    · rfl
    · next s hs =>
      rw [hs] at h
      simp only [Bool.not_eq_true', decide_eq_false_iff_not] at h
      rw [if_neg h]

theorem line_checkInput :
    checkInput 4 (lineDistances [0, 1, 2, 10]) 2 = .ok lineProblem := by
  unfold checkInput
  rw [dif_pos ⟨by decide, by decide, by decide!⟩]
  rfl

theorem line_converged : converged lineMatrix (buildMedoids lineMatrix 2) = true := by
  decide!

theorem line_runResult :
    runResult lineProblem (buildSeq lineProblem) = ⟨2, [1, 3], [0, 0, 0, 1]⟩ := by
  decide!

/-! ## Convergence of the modelled PAM loop -/

theorem cheaperCount_lt (dm : DistanceMatrix) (k : Nat) (M M2 : List (Fin dm.n))
    (h2 : M2.length = k) (hlt : totalCost dm M2 < totalCost dm M) :
    cheaperCount dm k M2 < cheaperCount dm k M := by
  unfold cheaperCount
  apply Finset.card_lt_card
  rw [Finset.ssubset_iff_of_subset]
  · refine ⟨⟨M2, h2⟩, ?_, ?_⟩
    · simp only [Finset.mem_filter, Finset.mem_univ, true_and]
      exact hlt
    · simp only [Finset.mem_filter, Finset.mem_univ, true_and]
      exact lt_irrefl _
  · intro v hv
    simp only [Finset.mem_filter, Finset.mem_univ, true_and] at hv ⊢
    exact lt_trans hv hlt

theorem cheaperCount_le_pow (dm : DistanceMatrix) (k : Nat) (M : List (Fin dm.n)) :
    cheaperCount dm k M ≤ dm.n ^ k := by
  unfold cheaperCount
  refine le_trans (Finset.card_filter_le _ _) ?_
  rw [Finset.card_univ, card_vector, Fintype.card_fin]

theorem swapDelta_neg_iff (dm : DistanceMatrix) (M : List (Fin dm.n)) (pos : Nat)
    (c : Fin dm.n) :
    swapDelta dm M pos c < 0 ↔ totalCost dm (M.set pos c) < totalCost dm M := by
  unfold swapDelta
  exact sub_neg

/-- Every applied swap strictly lowers the cost, and there are finitely many
medoid sequences: with as many iterations as there are cheaper sequences the
loop ends in a state that no swap improves. -/
theorem pamLoop_converges (dm : DistanceMatrix) (k : Nat) :
    ∀ (fuel : Nat) (M : List (Fin dm.n)), M.length = k → cheaperCount dm k M ≤ fuel →
      converged dm (pamLoop dm fuel M) = true := by
  intro fuel
  induction fuel with
  | zero =>
    intro M hM hc
    show converged dm M = true
    unfold converged
    split
    · rfl
    · next s _ =>
      simp only [Bool.not_eq_true', decide_eq_false_iff_not]
      intro hneg
      have := cheaperCount_lt dm k M (M.set s.1 s.2) (by simp [hM])
        ((swapDelta_neg_iff dm M s.1 s.2).mp hneg)
      omega
  | succ fuel ih =>
    intro M hM hc
    simp only [pamLoop]
    split
    · next hnone => unfold converged; rw [hnone]
    · next s hs =>
      by_cases hneg : swapDelta dm M s.1 s.2 < 0
      · rw [if_pos hneg]
        apply ih _ (by simp [hM])
        have := cheaperCount_lt dm k M (M.set s.1 s.2) (by simp [hM])
          ((swapDelta_neg_iff dm M s.1 s.2).mp hneg)
        omega
      · rw [if_neg hneg]
        unfold converged
        rw [hs]
        simp [hneg]

/-- Iterations add up: running `a + b` iterations is running `a` and then `b`. -/
theorem pamLoop_add (dm : DistanceMatrix) (b : Nat) :
    ∀ (a : Nat) (M : List (Fin dm.n)),
      pamLoop dm (a + b) M = pamLoop dm b (pamLoop dm a M) := by
  intro a
  induction a with
  | zero => intro M; rw [Nat.zero_add]; rfl
  | succ a ih =>
    intro M
    have hab : a + 1 + b = (a + b) + 1 := by omega
    rw [hab]
    simp only [pamLoop]
    split
    · next hnone =>
      rw [pamLoop_converged dm M (by unfold converged; rw [hnone]) b]
    · next s hs =>
      by_cases hneg : swapDelta dm M s.1 s.2 < 0
      · rw [if_pos hneg, if_pos hneg]
        exact ih _
      · rw [if_neg hneg, if_neg hneg]
        rw [pamLoop_converged dm M (by unfold converged; rw [hs]; simp [hneg]) b]

/-- The unbounded run of section 4.4: `n ^ k` iterations reach a state that no
swap improves, and any larger budget gives the same medoids. -/
theorem pamLoop_unbounded (dm : DistanceMatrix) (k : Nat) (M : List (Fin dm.n))
    (hM : M.length = k) (fuel : Nat) (hfuel : dm.n ^ k ≤ fuel) :
    converged dm (pamLoop dm (dm.n ^ k) M) = true
    ∧ pamLoop dm fuel M = pamLoop dm (dm.n ^ k) M := by
  have hconv : converged dm (pamLoop dm (dm.n ^ k) M) = true :=
    pamLoop_converges dm k _ M hM (cheaperCount_le_pow dm k M)
  refine ⟨hconv, ?_⟩
  obtain ⟨b, rfl⟩ : ∃ b, fuel = dm.n ^ k + b := ⟨fuel - dm.n ^ k, by omega⟩
  rw [pamLoop_add, pamLoop_converged dm _ hconv b]

/-! ## Cost and assignment of a run result -/

/-- Witness of C10: fastpam on the line example with the default initializer
name "LAB" and the seeds 1 and 2. -/
theorem fastpam_seed_irrelevant_witness :
    (some "LAB" : Option String).getD "LAB" ≠ "BUILD"
    ∧ fastpam (specFastPAM (exhaustive 4)) (lineDistances [0, 1, 2, 10]) 4 2 none
          (some "LAB") none (some 1)
        = fastpam (specFastPAM (exhaustive 4)) (lineDistances [0, 1, 2, 10]) 4 2 none
          (some "LAB") none (some 2) :=
  ⟨by decide,
    (fastpam_seed_irrelevant (specFastPAM (exhaustive 4)) (lineDistances [0, 1, 2, 10]) 4 2
      none (some "LAB") none (some 1) (some 2) (by decide)).1⟩

/-- C2, on the engines modelled from section 7: for each of the four entry points
and every input with `k < 1`, or `k > n`, or a distance vector whose length is
not `n(n-1)/2`, the call fails with the InvalidParameter condition instead of
returning a result.  The condition is raised by the engine constructor, so
`run()` is not reached, and the parameters reach the constructor unchanged. -/
theorem invalid_parameters_rejected (ch : OpenChoices) (fuel : Nat)
    (rdist : List Double) (n k : Int)
    (maxiter : Option Int) (initializer : Option String) (fasttol : Option Double)
    (numsamples : Option Int) (sampling : Option Double) (independent : Option Bool)
    (seed : Option Int) (numlocal : Option Int) (maxneighbor : Option Double)
    (h : k < 1 ∨ k > n ∨ (rdist.length : Int) ≠ n * (n - 1) / 2) :
    (pam (specPAM ch fuel) rdist n k maxiter = .error .InvalidParameter
      ∧ (specPAM ch fuel).new
          ⟨n, ⟨n, rdist⟩, .BUILD ⟨n, rdist⟩, k, maxiter.getD 0⟩ = .error .InvalidParameter)
    ∧ (fastpam (specFastPAM ch) rdist n k maxiter initializer fasttol seed
          = .error .InvalidParameter
      ∧ ∀ init, (specFastPAM ch).new
          ⟨n, ⟨n, rdist⟩, init, k, maxiter.getD 0, fasttol.getD 1⟩
            = .error .InvalidParameter)
    ∧ (fastclara (specFastCLARA ch) rdist n k maxiter initializer fasttol numsamples
          sampling independent seed = .error .InvalidParameter
      ∧ ∀ init, (specFastCLARA ch).new
          ⟨n, ⟨n, rdist⟩, init, k, maxiter.getD 0, fasttol.getD 1, numsamples.getD 5,
            sampling.getD (1 / 4), independent.getD false, seed.getD 123456789⟩
            = .error .InvalidParameter)
    ∧ (fastclarans (specFastCLARANS ch) rdist n k numlocal maxneighbor seed
          = .error .InvalidParameter
      ∧ (specFastCLARANS ch).new
          ⟨n, ⟨n, rdist⟩, k, numlocal.getD 2, maxneighbor.getD (1 / 40),
            seed.getD 123456789⟩ = .error .InvalidParameter) := by
  have hc := checkInput_invalid n rdist k h
  have h1 : (specPAM ch fuel).new
      ⟨n, ⟨n, rdist⟩, .BUILD ⟨n, rdist⟩, k, maxiter.getD 0⟩ = .error .InvalidParameter := by
    show (checkInput n rdist k).map _ = _
    rw [hc]; rfl
  have h2 : ∀ init, (specFastPAM ch).new
      ⟨n, ⟨n, rdist⟩, init, k, maxiter.getD 0, fasttol.getD 1⟩
        = .error .InvalidParameter := by
    intro init
    show (checkInput n rdist k).map _ = _
    rw [hc]; rfl
  have h3 : ∀ init, (specFastCLARA ch).new
      ⟨n, ⟨n, rdist⟩, init, k, maxiter.getD 0, fasttol.getD 1, numsamples.getD 5,
        sampling.getD (1 / 4), independent.getD false, seed.getD 123456789⟩
        = .error .InvalidParameter := by
    intro init
    show (match checkInput n rdist k with
      | .error c => Except.error c
      | .ok p => if ch.claraAdmits _ then Except.ok (⟨_, p, [], []⟩ : EngineObj FastCLARAArgs)
          else Except.error Condition.InvalidParameter) = _
    rw [hc]
  have h4 : (specFastCLARANS ch).new
      ⟨n, ⟨n, rdist⟩, k, numlocal.getD 2, maxneighbor.getD (1 / 40),
        seed.getD 123456789⟩ = .error .InvalidParameter := by
    show (checkInput n rdist k).map _ = _
    rw [hc]; rfl
  refine ⟨⟨?_, h1⟩, ⟨?_, h2⟩, ⟨?_, h3⟩, ⟨?_, h4⟩⟩
  · rw [pam_eq_outcome]; unfold engineOutcome; rw [h1]
  · rw [fastpam_eq_outcome]; unfold engineOutcome; rw [h2]
  · rw [fastclara_eq_outcome]; unfold engineOutcome; rw [h3]
  · rw [fastclarans_eq_outcome]; unfold engineOutcome; rw [h4]

/-- Witness of C2: the line example called with `k = 0`. -/
theorem invalid_parameters_rejected_witness :
    ((0 : Int) < 1 ∨ (0 : Int) > 4
        ∨ ((lineDistances [0, 1, 2, 10]).length : Int) ≠ 4 * (4 - 1) / 2)
    ∧ pam (specPAM (exhaustive 4) 4) (lineDistances [0, 1, 2, 10]) 4 0 none
        = .error .InvalidParameter :=
  ⟨Or.inl (by decide),
    (invalid_parameters_rejected (exhaustive 4) 4 (lineDistances [0, 1, 2, 10]) 4 0
      none none none none none none none none none (Or.inl (by decide))).1.1⟩

/-- C8, on the PAM engine modelled from sections 4.1, 4.3, 4.4 and 6: for the four
observations at positions 0, 1, 2, 10 on a line with Euclidean distances and
`k = 2`, pam returns cost 2, the medoids 1 and 3, and the assignment that puts
observations 0, 1 and 2 with the medoid 1 and observation 3 with the medoid 3
(as positions within the medoid sequence: 0, 0, 0, 1), for every iteration
budget. -/
theorem pam_line_example (ch : OpenChoices) (fuel : Nat) (maxiter : Option Int) :
    (∀ i j : Fin 4, pairDistance (lineDistances [0, 1, 2, 10]) i.val j.val
        = |([0, 1, 2, 10] : List Double).getD i.val 0
            - ([0, 1, 2, 10] : List Double).getD j.val 0|)
    ∧ ∃ r, pam (specPAM ch fuel) (lineDistances [0, 1, 2, 10]) 4 2 maxiter = .ok r
      ∧ r.cost = 2 ∧ r.medoids = [1, 3] ∧ r.assignment = [0, 0, 0, 1]
      ∧ r.assignment.map (fun a => r.medoids.getD a.toNat 0) = [1, 1, 1, 3] := by
  refine ⟨by decide!, ?_⟩
  have hfix : pamSearch lineProblem (iterations fuel (maxiter.getD 0))
      (initialMedoids ch lineProblem (.BUILD ⟨4, lineDistances [0, 1, 2, 10]⟩))
        = buildSeq lineProblem :=
    Subtype.ext (pamLoop_converged lineMatrix _ line_converged _)
  rw [pam_eq_outcome, specPAM_outcome ch fuel _ lineProblem line_checkInput]
  refine ⟨_, rfl, ?_⟩
  simp only [hfix, line_runResult]
  decide

end FastKMedoids
